import Mathlib

/-!
Verification of the gogorobot harvesting pipeline (src/gogorobot.go).

Shallow embedding: the per-pull body of the worker loop `fetchRobot`
(lines 77-145) becomes a pure step function from the pulled request and
the network's behaviour for that attempt to the action the worker takes;
the persistence loop `saveRobots` (lines 203-257) becomes a fold over an
event list; the sqlite table becomes a list of rows.  `time.Now()`
timestamps are environment noise and are omitted from the row model; no
claim speaks about their values.
-/

/-- Go's `strings.HasPrefix(s, pre)`: `pre` is a leading prefix of `s`
(`len(s) >= len(pre) && s[0:len(pre)] == pre`), character-level here. -/
def hasPrefixStr (s pre : String) : Bool := pre.data.isPrefixOf s.data

/-- String constants from the source. -/
def textPlain : String := "text/plain"

def wwwDot : String := "www."

/-- gogorobot.go line 81: requests whose incremented attempt exceeds 2 are
abandoned. -/
def MAX_ATTEMPTS : Nat := 2

/-- gogorobot.go line 70: `CheckRedirect` errors once `len(via) > 10`. -/
def REDIRECT_CAP : Nat := 10

/-- gogorobot.go lines 35-38. -/
structure FetchRequest where
  domain : String
  attempt : Nat
deriving DecidableEq, Repr

/-- gogorobot.go lines 40-47, minus the `FetchTime` wall-clock field.
`body` is the byte sequence; `nil` in the source becomes `[]`. -/
structure RobotResponse where
  domain : String
  url : String
  hasRobots : Bool
  body : List Nat
  redirects : Nat
deriving DecidableEq, Repr

/-- The three predicates the error-handling code (lines 92-105) asks of a
`*net.OpError` returned inside a `*url.Error`: whether the wrapped error
is a `*net.DNSError`, and the `Timeout()` / `Temporary()` methods. -/
structure OpErrorInfo where
  isDnsError : Bool
  isTimeout : Bool
  isTemporary : Bool
deriving DecidableEq, Repr

/-- Outcome of `ioutil.ReadAll(resp.Body)` at line 137. -/
inductive BodyRead where
  | ok (bytes : List Nat)
  | readError
deriving DecidableEq, Repr

/-- What the network does for one fetch attempt, before the client's
redirect policy is applied.  `httpExchange hops status cts finalUrl br`
means the server chain makes the client follow `hops` redirects and, if
the client lets it finish, deliver a final response with the given
status, declared `Content-Type` header values, final request URL and
body-read behaviour. -/
inductive AttemptOutcome where
  | transportError (info : OpErrorInfo)
  | otherClientError
  | httpExchange (hops status : Nat) (cts : List String) (finalUrl : String) (br : BodyRead)
deriving DecidableEq, Repr

/-- How `client.Do` can fail as seen by the type switches at lines 92-93:
either a `*url.Error` wrapping a `*net.OpError`, or any other error shape
(which fails the `*net.OpError` assertion).  The `errors.New` returned by
`CheckRedirect` at line 71 is of the second shape. -/
inductive DoErrKind where
  | opError (info : OpErrorInfo)
  | nonOpError
deriving DecidableEq, Repr

/-- Result of `client.Do(req)` at line 89: an error, or a response
together with `len(lastVia)`, the number of redirect hops followed
(`lastVia` is reset at line 78 and set by `CheckRedirect` at line 69). -/
inductive DoResult where
  | doErr (k : DoErrKind)
  | doOk (status : Nat) (cts : List String) (finalUrl : String) (br : BodyRead) (lastViaLen : Nat)
deriving DecidableEq, Repr

/-- The HTTP client of lines 64-75.  `CheckRedirect` is invoked before the
k-th redirected request with `via` holding the k requests already made,
so it errors exactly when some k exceeds `REDIRECT_CAP`, i.e. when the
chain demands more than `REDIRECT_CAP` hops; otherwise the last
invocation leaves `len(lastVia)` equal to the number of hops followed. -/
def clientDo : AttemptOutcome → DoResult
  | .transportError info => .doErr (.opError info)
  | .otherClientError => .doErr .nonOpError
  | .httpExchange hops status cts finalUrl br =>
      if hops > REDIRECT_CAP then .doErr .nonOpError
      else .doOk status cts finalUrl br hops

/-- What the worker does with the pulled request after one attempt:
`abandon` is the `continue` at line 83, `emit r` is a push of `r` onto
`savePipeline`, `resubmit fr` is a push of `fr` back onto
`fetchPipeline`. -/
inductive StepAction where
  | abandon
  | emit (r : RobotResponse)
  | resubmit (fr : FetchRequest)
deriving DecidableEq, Repr

/-- One iteration of the `for fr := range fetchPipeline` loop of
`fetchRobot`, lines 77-145.  `fr.Attempt += 1` at line 80 happens before
the budget check at line 81; the DNS branch (lines 94-98) rewrites the
domain and resubmits; the timeout/temporary branch (lines 100-104)
resubmits; any other `client.Do` error reaches line 108; a completed
response is classified by status (line 115) then content type
(lines 123-129); a body-read error resubmits (line 140); otherwise the
success row is emitted (line 144). -/
def fetchRobotStep (fr : FetchRequest) (outcome : AttemptOutcome) : StepAction :=
  let domain := fr.domain
  let attempt := fr.attempt + 1
  if attempt > MAX_ATTEMPTS then .abandon
  else
    match clientDo outcome with
    | .doErr (.opError info) =>
        if info.isDnsError && !(hasPrefixStr domain wwwDot) then
          .resubmit ⟨wwwDot ++ domain, attempt⟩
        else if info.isTimeout || info.isTemporary then
          .resubmit ⟨domain, attempt⟩
        else
          .emit ⟨domain, "", false, [], 0⟩
    | .doErr .nonOpError =>
        .emit ⟨domain, "", false, [], 0⟩
    | .doOk status cts finalUrl br lastViaLen =>
        if status < 200 || status > 206 then
          .emit ⟨domain, finalUrl, false, [], lastViaLen⟩
        else if !(cts.all fun m => hasPrefixStr m textPlain) then
          .emit ⟨domain, finalUrl, false, [], lastViaLen⟩
        else
          match br with
          | .readError => .resubmit ⟨domain, attempt⟩
          | .ok bytes => .emit ⟨domain, finalUrl, true, bytes, lastViaLen⟩

/-- Everything one request lineage does inside the worker pool:
`emissions` collects the rows pushed onto `savePipeline` in order,
`abandoned` records whether the lineage ended in the `continue` at
line 83, `tries` counts the fetch attempts actually performed
(`client.Do` calls). -/
structure LineageTrace where
  emissions : List RobotResponse
  abandoned : Bool
  tries : Nat
deriving DecidableEq, Repr

theorem fetchRobotStep_resubmit (fr fr' : FetchRequest) (o : AttemptOutcome)
    (h : fetchRobotStep fr o = .resubmit fr') :
    fr'.attempt = fr.attempt + 1 ∧ fr.attempt + 1 ≤ MAX_ATTEMPTS := by
  unfold fetchRobotStep at h
  dsimp only at h
  split at h
  · exact absurd h (by simp)
  · rename_i hbudget
    constructor
    · split at h
      · split at h
        · cases h; rfl
        · split at h
          · cases h; rfl
          · exact absurd h (by simp)
      · exact absurd h (by simp)
      · split at h
        · exact absurd h (by simp)
        · split at h
          · exact absurd h (by simp)
          · split at h
            · cases h; rfl
            · exact absurd h (by simp)
    · omega

/-- A request lineage: each pull either ends the lineage (abandon / emit)
or resubmits a rewritten request, which some worker pulls next.  Retries
of one lineage are sequential (spec section 5), so the lineage is a plain
recursion; `outs n` is the network's behaviour for the n-th pull of this
lineage that performs a fetch.  The model assumes queue submissions
succeed (the shutdown race where they do not is treated separately).
Terminates because every resubmission carries a strictly larger attempt
counter and the budget check abandons once it passes `MAX_ATTEMPTS`. -/
def runLineage (outs : Nat → AttemptOutcome) (fr : FetchRequest) (idx : Nat) : LineageTrace :=
  match h : fetchRobotStep fr (outs idx) with
  | .abandon => ⟨[], true, 0⟩
  | .emit r => ⟨[r], false, 1⟩
  | .resubmit fr' =>
      let t := runLineage outs fr' (idx + 1)
      ⟨t.emissions, t.abandoned, t.tries + 1⟩
termination_by (MAX_ATTEMPTS + 1) - fr.attempt
decreasing_by
  have hd := fetchRobotStep_resubmit fr fr' (outs idx) h
  unfold MAX_ATTEMPTS at hd ⊢
  omega

/-- The two events the `select` at lines 205-251 reacts to while the
result queue is open: a received result or a timer tick.  Queue closure
ends the event list (the `break Loop` at line 208). -/
inductive SaveEvent where
  | recv (r : RobotResponse)
  | tick
deriving DecidableEq, Repr

/-- In-memory state of `saveRobots` between events: the rows inserted
into the currently open transaction (lines 211-218), the batches already
committed in order (line 233), and the interval counters (lines 188-189,
222-225, 230-231). -/
structure SaveState where
  openTx : List RobotResponse
  committed : List (List RobotResponse)
  saveCount : Nat
  failCount : Nat
deriving DecidableEq, Repr

/-- State after `db.Begin()` at line 191, before any event. -/
def initSaveState : SaveState := ⟨[], [], 0, 0⟩

/-- One `select` arm, lines 206-251.  A received result is inserted into
the open transaction, then counted (`failCount` when `resp.Url == ""`
at line 222, `saveCount` at line 225).  A tick commits the open
transaction, zeroes both counters and begins a new transaction
(lines 227-249). -/
def saveRobotsStep (s : SaveState) : SaveEvent → SaveState
  | .recv r =>
      { s with
        openTx := s.openTx ++ [r]
        saveCount := s.saveCount + 1
        failCount := s.failCount + (if r.url = "" then 1 else 0) }
  | .tick =>
      { openTx := [], committed := s.committed ++ [s.openTx], saveCount := 0, failCount := 0 }

/-- The final commit at line 253 after the result queue closes. -/
def saveRobotsFinal (s : SaveState) : SaveState :=
  { s with openTx := [], committed := s.committed ++ [s.openTx] }

/-- State after processing a whole event list. -/
def saveRobotsFold (evs : List SaveEvent) : SaveState :=
  evs.foldl saveRobotsStep initSaveState

/-- Full run of the persistence loop: drain the events, then the final
commit. -/
def saveRobotsRun (evs : List SaveEvent) : SaveState :=
  saveRobotsFinal (saveRobotsFold evs)

/-- The results received from the queue, in arrival order. -/
def receivedRows : List SaveEvent → List RobotResponse
  | [] => []
  | .recv r :: evs => r :: receivedRows evs
  | .tick :: evs => receivedRows evs

/-- Opening `./robots.db` (lines 152-183): if the file has no `robots`
table it is created empty; if the table exists, creation is skipped and
its rows are kept — nothing ever deletes or truncates.  `none` models a
missing table. -/
def openRobotsDb : Option (List RobotResponse) → List RobotResponse
  | none => []
  | some rows => rows

/-- Table contents after a run of `saveRobots` against a database whose
`robots` table held `initialRows`: committed batches append to what was
already there. -/
def tableAfterRun (initialRows : List RobotResponse) (evs : List SaveEvent) : List RobotResponse :=
  initialRows ++ (saveRobotsRun evs).committed.flatten

/-- The `SELECT COUNT(*) FROM robots` at lines 261-268, reported after
the final commit. -/
def reportedTotal (initialRows : List RobotResponse) (evs : List SaveEvent) : Nat :=
  (tableAfterRun initialRows evs).length

/-- Modelled from Go channel semantics (not from a file under src/):
what a `ch <- v` send does depending on whether `close(ch)` has already
run — a send on a closed channel panics, it neither delivers nor returns
an error. -/
inductive ChanPushResult where
  | delivered
  | panicked
deriving DecidableEq, Repr

/-- Modelled from Go channel semantics: sending on a channel that has
been closed panics; sending on an open unbuffered channel blocks until
delivered. -/
def pushToChan (closed : Bool) : ChanPushResult :=
  if closed then .panicked else .delivered

/-- C1: for every HTTP response outcome the client completes (redirect
chain within the cap), an emitted `FetchResult` has `success = true` iff
the status code is in [200,206] and every declared `Content-Type` header
value has the `"text/plain"` prefix; in particular a 2xx response with no
`Content-Type` header at all is classified as success. -/
theorem fetch_success_iff_status_and_plaintext
    (fr : FetchRequest) (hops status : Nat) (cts : List String) (u : String)
    (br : BodyRead) (r : RobotResponse)
    (hhops : hops ≤ REDIRECT_CAP)
    (hemit : fetchRobotStep fr (.httpExchange hops status cts u br) = .emit r) :
    (r.hasRobots = true ↔
      (200 ≤ status ∧ status ≤ 206 ∧ cts.all (fun m => hasPrefixStr m textPlain) = true))
    ∧ (cts = [] → 200 ≤ status → status ≤ 206 → r.hasRobots = true) := by
  have hdo : clientDo (.httpExchange hops status cts u br) = .doOk status cts u br hops := by
    simp only [clientDo]
    rw [if_neg (by omega : ¬ hops > REDIRECT_CAP)]
  unfold fetchRobotStep at hemit
  dsimp only at hemit
  rw [hdo] at hemit
  dsimp only at hemit
  split at hemit
  · exact absurd hemit (by simp)
  · split at hemit
    · rename_i hstat
      simp only [decide_eq_true_eq, Bool.or_eq_true] at hstat
      cases hemit
      constructor
      · constructor
        · intro hh; exact Bool.noConfusion hh
        · rintro ⟨h1, h2, _⟩; omega
      · intro _ h1 h2; omega
    · split at hemit
      · rename_i hstat hct
        simp only [Bool.not_eq_true'] at hct
        cases hemit
        constructor
        · constructor
          · intro hh; exact Bool.noConfusion hh
          · rintro ⟨_, _, hall⟩; rw [hct] at hall; exact Bool.noConfusion hall
        · intro hnil _ _; subst hnil; simp at hct
      · rename_i hstat hct
        simp only [decide_eq_true_eq, Bool.or_eq_true, not_or, not_lt] at hstat
        simp only [Bool.not_eq_true', Bool.not_eq_false] at hct
        cases br with
        | readError => exact absurd hemit (by simp)
        | ok bytes =>
          cases hemit
          refine ⟨?_, fun _ _ _ => rfl⟩
          simp only [true_iff]
          refine ⟨by omega, by omega, hct⟩

/-- Witness for C1: a 200 response with no `Content-Type` header and a
readable body, fetched with no redirects, is emitted with success. -/
theorem fetch_success_iff_status_and_plaintext_witness :
    (0 ≤ REDIRECT_CAP
      ∧ fetchRobotStep ⟨"example.com", 0⟩
          (.httpExchange 0 200 [] "http://example.com/robots.txt" (.ok [42]))
          = .emit ⟨"example.com", "http://example.com/robots.txt", true, [42], 0⟩)
    ∧ (((⟨"example.com", "http://example.com/robots.txt", true, [42], 0⟩ : RobotResponse).hasRobots = true ↔
          (200 ≤ 200 ∧ 200 ≤ 206 ∧ ([] : List String).all (fun m => hasPrefixStr m textPlain) = true))
        ∧ (([] : List String) = [] → 200 ≤ 200 → 200 ≤ 206 →
            (⟨"example.com", "http://example.com/robots.txt", true, [42], 0⟩ : RobotResponse).hasRobots = true)) :=
  ⟨⟨by decide, by decide⟩,
    fetch_success_iff_status_and_plaintext ⟨"example.com", 0⟩ 0 200 []
      "http://example.com/robots.txt" (.ok [42]) _ (by decide) (by decide)⟩

theorem runLineage_eq_abandon (outs : Nat → AttemptOutcome) (fr : FetchRequest) (idx : Nat)
    (h : fetchRobotStep fr (outs idx) = .abandon) :
    runLineage outs fr idx = ⟨[], true, 0⟩ := by
  rw [runLineage.eq_def]
  split
  · rfl
  · rename_i heq; rw [h] at heq; exact StepAction.noConfusion heq
  · rename_i heq; rw [h] at heq; exact StepAction.noConfusion heq

theorem runLineage_eq_emit (outs : Nat → AttemptOutcome) (fr : FetchRequest) (idx : Nat)
    (r : RobotResponse) (h : fetchRobotStep fr (outs idx) = .emit r) :
    runLineage outs fr idx = ⟨[r], false, 1⟩ := by
  rw [runLineage.eq_def]
  split
  · rename_i heq; rw [h] at heq; exact StepAction.noConfusion heq
  · rename_i r' heq
    rw [h] at heq
    cases heq
    rfl
  · rename_i heq; rw [h] at heq; exact StepAction.noConfusion heq

theorem runLineage_eq_resubmit (outs : Nat → AttemptOutcome) (fr : FetchRequest) (idx : Nat)
    (fr' : FetchRequest) (h : fetchRobotStep fr (outs idx) = .resubmit fr') :
    runLineage outs fr idx =
      ⟨(runLineage outs fr' (idx + 1)).emissions,
        (runLineage outs fr' (idx + 1)).abandoned,
        (runLineage outs fr' (idx + 1)).tries + 1⟩ := by
  rw [runLineage.eq_def]
  split
  · rename_i heq; rw [h] at heq; exact StepAction.noConfusion heq
  · rename_i heq; rw [h] at heq; exact StepAction.noConfusion heq
  · rename_i fr'' heq
    rw [h] at heq
    cases heq
    rfl

/-- C2: for every request lineage entering the worker pool (any initial
request and any network behaviour), exactly one of the following occurs:
a single terminal result is pushed onto the result queue, or the lineage
is abandoned after exhausting its attempt budget — never both and never
neither.  The lineage function is total, so "neither" is impossible, and
the disjunction is exclusive by the `abandoned` flag. -/
theorem lineage_exactly_one_terminal (outs : Nat → AttemptOutcome) (fr : FetchRequest) (idx : Nat) :
    ((runLineage outs fr idx).abandoned = true ∧ (runLineage outs fr idx).emissions = [])
    ∨ ((runLineage outs fr idx).abandoned = false ∧ ∃ r, (runLineage outs fr idx).emissions = [r]) := by
  induction fr, idx using runLineage.induct outs with
  | case1 fr idx h =>
    left
    rw [runLineage_eq_abandon outs fr idx h]
    exact ⟨rfl, rfl⟩
  | case2 fr idx r h =>
    right
    rw [runLineage_eq_emit outs fr idx r h]
    exact ⟨rfl, r, rfl⟩
  | case3 fr idx fr' h ih =>
    rw [runLineage_eq_resubmit outs fr idx fr' h]
    rcases ih with ⟨ha, he⟩ | ⟨ha, r, he⟩
    · left; exact ⟨ha, he⟩
    · right; exact ⟨ha, r, he⟩

/-- C3 counterexample: the claim says a DNS failure on a non-www domain
re-submits with the attempt counter unchanged.  On the code, the pull of
`⟨"example.com", 0⟩` whose attempt ends in a DNS error re-submits
`⟨"www.example.com", 1⟩`: the attempt counter went from 0 to 1 (the
line-80 increment ran before the fallback), so the fallback does consume
the attempt budget. -/
theorem dns_fallback_increments_attempt_cx :
    fetchRobotStep ⟨"example.com", 0⟩ (.transportError ⟨true, false, false⟩)
      = .resubmit ⟨"www.example.com", 1⟩
    ∧ (1 : Nat) ≠ 0 := by
  exact ⟨by decide, by decide⟩

/-- C3 amended: a DNS resolution failure on a domain that does not start
with "www." causes the request to be re-submitted with the domain
rewritten to "www."+domain and the attempt counter incremented by one —
the same increment every pull performs — so the fallback consumes the
timeout/temporary-error attempt budget exactly like an ordinary retry. -/
theorem dns_fallback_rewrites_and_increments
    (fr : FetchRequest) (info : OpErrorInfo)
    (hdns : info.isDnsError = true)
    (hwww : hasPrefixStr fr.domain wwwDot = false)
    (hbudget : fr.attempt + 1 ≤ MAX_ATTEMPTS) :
    fetchRobotStep fr (.transportError info)
      = .resubmit ⟨wwwDot ++ fr.domain, fr.attempt + 1⟩ := by
  unfold fetchRobotStep clientDo
  dsimp only
  rw [if_neg (by omega : ¬ fr.attempt + 1 > MAX_ATTEMPTS)]
  rw [hdns, hwww]
  rfl

/-- Witness for the amended C3. -/
theorem dns_fallback_rewrites_and_increments_witness :
    ((⟨true, false, false⟩ : OpErrorInfo).isDnsError = true
      ∧ hasPrefixStr "example.com" wwwDot = false
      ∧ 0 + 1 ≤ MAX_ATTEMPTS)
    ∧ fetchRobotStep ⟨"example.com", 0⟩ (.transportError ⟨true, false, false⟩)
        = .resubmit ⟨wwwDot ++ "example.com", 0 + 1⟩ :=
  ⟨⟨rfl, by decide, by decide⟩,
    dns_fallback_rewrites_and_increments ⟨"example.com", 0⟩ ⟨true, false, false⟩
      rfl (by decide) (by decide)⟩

/-- Shared lemma: a timeout / temporary (non-DNS) transport error within
the attempt budget makes the worker resubmit the same domain with the
attempt counter incremented (lines 100-104). -/
theorem transient_step_resubmits (fr : FetchRequest) (info : OpErrorInfo)
    (hdns : info.isDnsError = false)
    (htr : info.isTimeout = true ∨ info.isTemporary = true)
    (hbudget : fr.attempt + 1 ≤ MAX_ATTEMPTS) :
    fetchRobotStep fr (.transportError info) = .resubmit ⟨fr.domain, fr.attempt + 1⟩ := by
  unfold fetchRobotStep clientDo
  dsimp only
  rw [if_neg (by omega : ¬ fr.attempt + 1 > MAX_ATTEMPTS)]
  rcases htr with h | h <;> simp [hdns, h]

/-- Shared lemma: a pull whose incremented attempt exceeds the budget is
abandoned before any fetch (lines 81-84). -/
theorem fetchRobotStep_abandon (fr : FetchRequest) (o : AttemptOutcome)
    (h : fr.attempt + 1 > MAX_ATTEMPTS) : fetchRobotStep fr o = .abandon := by
  unfold fetchRobotStep
  dsimp only
  rw [if_pos h]

/-- C4 counterexample: the claim says an all-timeout lineage ends after
`MAX_ATTEMPTS + 1` total fetch tries.  On the code, the lineage of
`⟨"example.com", 0⟩` under all-timeout behaviour is abandoned after
exactly 2 fetch tries, and 2 ≠ MAX_ATTEMPTS + 1 = 3: the budget check at
line 81 runs after the line-80 increment and before the fetch, so the
third pull performs no fetch at all. -/
theorem timeout_budget_tries_cx :
    runLineage (fun _ => .transportError ⟨false, true, false⟩) ⟨"example.com", 0⟩ 0
      = ⟨[], true, 2⟩
    ∧ (2 : Nat) ≠ MAX_ATTEMPTS + 1 := by
  refine ⟨?_, by decide⟩
  have s0 := transient_step_resubmits ⟨"example.com", 0⟩ ⟨false, true, false⟩ rfl (Or.inl rfl) (by decide)
  have s1 := transient_step_resubmits ⟨"example.com", 1⟩ ⟨false, true, false⟩ rfl (Or.inl rfl) (by decide)
  have s2 := fetchRobotStep_abandon ⟨"example.com", 2⟩ (.transportError ⟨false, true, false⟩) (by decide)
  rw [runLineage_eq_resubmit _ _ _ _ s0, runLineage_eq_resubmit _ _ _ _ s1,
    runLineage_eq_abandon _ _ _ s2]

/-- C4 amended: if every fetch attempt for a domain fails with a timeout
or temporary (non-DNS) network error, the request is retried while the
incremented attempt counter is within `MAX_ATTEMPTS` and then abandoned:
after exactly `MAX_ATTEMPTS` (= 2) total fetch tries the lineage ends
silently — it is abandoned and emits nothing, so no row is ever written
to the sink for that domain. -/
theorem all_transient_abandons_after_max_tries
    (domain : String) (idx : Nat) (outs : Nat → AttemptOutcome)
    (hall : ∀ n, ∃ info : OpErrorInfo, outs n = .transportError info
        ∧ info.isDnsError = false ∧ (info.isTimeout = true ∨ info.isTemporary = true)) :
    runLineage outs ⟨domain, 0⟩ idx = ⟨[], true, MAX_ATTEMPTS⟩ := by
  obtain ⟨i0, h0, hd0, ht0⟩ := hall idx
  obtain ⟨i1, h1, hd1, ht1⟩ := hall (idx + 1)
  have s0 : fetchRobotStep ⟨domain, 0⟩ (outs idx) = .resubmit ⟨domain, 1⟩ := by
    rw [h0]
    exact transient_step_resubmits ⟨domain, 0⟩ i0 hd0 ht0 (show 0 + 1 ≤ MAX_ATTEMPTS by decide)
  have s1 : fetchRobotStep ⟨domain, 1⟩ (outs (idx + 1)) = .resubmit ⟨domain, 2⟩ := by
    rw [h1]
    exact transient_step_resubmits ⟨domain, 1⟩ i1 hd1 ht1 (show 1 + 1 ≤ MAX_ATTEMPTS by decide)
  have s2 : fetchRobotStep ⟨domain, 2⟩ (outs (idx + 2)) = .abandon :=
    fetchRobotStep_abandon ⟨domain, 2⟩ _ (show 2 + 1 > MAX_ATTEMPTS by decide)
  rw [runLineage_eq_resubmit _ _ _ _ s0, runLineage_eq_resubmit _ _ _ _ s1,
    runLineage_eq_abandon _ _ _ s2]
  rfl

/-- Witness for the amended C4. -/
theorem all_transient_abandons_after_max_tries_witness :
    (∀ n : Nat, ∃ info : OpErrorInfo,
        (fun _ : Nat => AttemptOutcome.transportError ⟨false, true, false⟩) n
          = .transportError info
        ∧ info.isDnsError = false ∧ (info.isTimeout = true ∨ info.isTemporary = true))
    ∧ runLineage (fun _ => .transportError ⟨false, true, false⟩) ⟨"example.org", 0⟩ 0
        = ⟨[], true, MAX_ATTEMPTS⟩ :=
  ⟨fun _ => ⟨⟨false, true, false⟩, rfl, rfl, Or.inl rfl⟩,
    all_transient_abandons_after_max_tries "example.org" 0 _
      (fun _ => ⟨⟨false, true, false⟩, rfl, rfl, Or.inl rfl⟩)⟩

/-- C5 counterexample: the claim says a redirect chain exceeding the cap
of 10 is recorded with a populated `finalUrl`.  On the code, a chain of
11 redirects makes `CheckRedirect` error, `client.Do` returns a
non-`OpError` error, and line 108 records `finalUrl = ""` (and
`redirectCount = 0`), not a populated URL. -/
theorem redirect_cap_empty_url_cx :
    fetchRobotStep ⟨"example.com", 0⟩
      (.httpExchange 11 200 [textPlain] "http://example.com/robots.txt" (.ok [1]))
      = .emit ⟨"example.com", "", false, [], 0⟩
    ∧ ("" : String) ≠ "http://example.com/robots.txt" :=
  ⟨by decide, by decide⟩

/-- C5 amended: for every completed HTTP response the recorded
`redirectCount` equals the number of redirect hops actually followed, and
a redirect chain exceeding the cap of 10 terminates the attempt as a
terminal failure recorded through the generic transport-error path with
EMPTY `finalUrl` and `redirectCount = 0`; boundary: exactly 10 followed
redirects can still succeed (11 fails). -/
theorem redirect_count_and_cap (fr : FetchRequest) (hops status : Nat)
    (cts : List String) (u : String) (bytes : List Nat)
    (hbudget : fr.attempt + 1 ≤ MAX_ATTEMPTS) :
    (∀ r, hops ≤ REDIRECT_CAP →
        fetchRobotStep fr (.httpExchange hops status cts u (.ok bytes)) = .emit r →
        r.redirects = hops)
    ∧ (hops > REDIRECT_CAP →
        fetchRobotStep fr (.httpExchange hops status cts u (.ok bytes))
          = .emit ⟨fr.domain, "", false, [], 0⟩)
    ∧ (hops = REDIRECT_CAP → 200 ≤ status → status ≤ 206 →
        cts.all (fun m => hasPrefixStr m textPlain) = true →
        fetchRobotStep fr (.httpExchange hops status cts u (.ok bytes))
          = .emit ⟨fr.domain, u, true, bytes, REDIRECT_CAP⟩) := by
  refine ⟨?_, ?_, ?_⟩
  · intro r hh hemit
    have hdo : clientDo (.httpExchange hops status cts u (.ok bytes))
        = .doOk status cts u (.ok bytes) hops := by
      simp only [clientDo]
      rw [if_neg (by omega : ¬ hops > REDIRECT_CAP)]
    unfold fetchRobotStep at hemit
    dsimp only at hemit
    rw [hdo] at hemit
    dsimp only at hemit
    rw [if_neg (by omega : ¬ fr.attempt + 1 > MAX_ATTEMPTS)] at hemit
    split at hemit
    · cases hemit; rfl
    · split at hemit
      · cases hemit; rfl
      · cases hemit; rfl
  · intro hh
    have hdo : clientDo (.httpExchange hops status cts u (.ok bytes))
        = .doErr .nonOpError := by
      simp only [clientDo]
      rw [if_pos hh]
    unfold fetchRobotStep
    dsimp only
    rw [hdo]
    dsimp only
    rw [if_neg (by omega : ¬ fr.attempt + 1 > MAX_ATTEMPTS)]
  · intro hhops h1 h2 hall
    have hdo : clientDo (.httpExchange hops status cts u (.ok bytes))
        = .doOk status cts u (.ok bytes) hops := by
      simp only [clientDo]
      rw [if_neg (by omega : ¬ hops > REDIRECT_CAP)]
    unfold fetchRobotStep
    dsimp only
    rw [hdo]
    dsimp only
    rw [if_neg (by omega : ¬ fr.attempt + 1 > MAX_ATTEMPTS)]
    split
    · rename_i hbad
      simp only [decide_eq_true_eq, Bool.or_eq_true] at hbad
      omega
    · split
      · rename_i hbad
        rw [hall] at hbad
        simp at hbad
      · rw [hhops]

/-- Witness for the amended C5, at the cap boundary: exactly 10 followed
redirects with a 200 text/plain response still succeed, recording
`redirectCount = 10`. -/
theorem redirect_count_and_cap_witness :
    (0 + 1 ≤ MAX_ATTEMPTS ∧ 10 = REDIRECT_CAP ∧ 200 ≤ 200 ∧ 200 ≤ 206
      ∧ [textPlain].all (fun m => hasPrefixStr m textPlain) = true)
    ∧ fetchRobotStep ⟨"example.net", 0⟩
        (.httpExchange 10 200 [textPlain] "http://example.net/robots.txt" (.ok [7]))
        = .emit ⟨"example.net", "http://example.net/robots.txt", true, [7], REDIRECT_CAP⟩ :=
  ⟨⟨by decide, by decide, by decide, by decide, by decide⟩,
    (redirect_count_and_cap ⟨"example.net", 0⟩ 10 200 [textPlain]
        "http://example.net/robots.txt" [7] (by decide)).2.2
      (by decide) (by decide) (by decide) (by decide)⟩

/-- C6: for every OtherFailure transport outcome — a `client.Do` error
that is neither a DNS error, nor a timeout, nor temporary (e.g. a refused
connection), or an error that is not a `*net.OpError` at all — the worker
emits exactly one terminal result carrying the original pulled domain,
empty `finalUrl`, `success = false`, empty body and `redirectCount = 0`,
and never retries the request (the single action is an emit, not a
resubmission). -/
theorem other_failure_terminal (fr : FetchRequest) (o : AttemptOutcome)
    (hbudget : fr.attempt + 1 ≤ MAX_ATTEMPTS)
    (hof : (∃ info : OpErrorInfo, o = .transportError info
        ∧ info.isDnsError = false ∧ info.isTimeout = false ∧ info.isTemporary = false)
      ∨ o = .otherClientError) :
    fetchRobotStep fr o = .emit ⟨fr.domain, "", false, [], 0⟩ := by
  rcases hof with ⟨info, ho, hd, ht, hp⟩ | ho
  · subst ho
    unfold fetchRobotStep clientDo
    dsimp only
    rw [if_neg (by omega : ¬ fr.attempt + 1 > MAX_ATTEMPTS)]
    simp [hd, ht, hp]
  · subst ho
    unfold fetchRobotStep clientDo
    dsimp only
    rw [if_neg (by omega : ¬ fr.attempt + 1 > MAX_ATTEMPTS)]

/-- Witness for C6: a connection-refused-style error. -/
theorem other_failure_terminal_witness :
    (0 + 1 ≤ MAX_ATTEMPTS
      ∧ ((∃ info : OpErrorInfo,
            AttemptOutcome.transportError ⟨false, false, false⟩ = .transportError info
            ∧ info.isDnsError = false ∧ info.isTimeout = false ∧ info.isTemporary = false)
          ∨ AttemptOutcome.transportError ⟨false, false, false⟩ = .otherClientError))
    ∧ fetchRobotStep ⟨"refused.example", 0⟩ (.transportError ⟨false, false, false⟩)
        = .emit ⟨"refused.example", "", false, [], 0⟩ :=
  ⟨⟨by decide, Or.inl ⟨⟨false, false, false⟩, rfl, rfl, rfl, rfl⟩⟩,
    other_failure_terminal ⟨"refused.example", 0⟩ (.transportError ⟨false, false, false⟩)
      (by decide) (Or.inl ⟨⟨false, false, false⟩, rfl, rfl, rfl, rfl⟩)⟩

/-- Number of failure rows (`finalUrl == ""`) in a list, as counted at
line 222. -/
def failsIn (l : List RobotResponse) : Nat := l.countP (fun r => decide (r.url = ""))

/-- Shared lemma: over any event sequence, the rows in committed batches
followed by the rows still in the open transaction are exactly the rows
received so far, in order. -/
theorem saveRobotsFold_flatten (evs : List SaveEvent) (s : SaveState) :
    (evs.foldl saveRobotsStep s).committed.flatten ++ (evs.foldl saveRobotsStep s).openTx
      = s.committed.flatten ++ s.openTx ++ receivedRows evs := by
  induction evs generalizing s with
  | nil => simp [receivedRows]
  | cons e evs ih =>
    cases e with
    | recv r =>
      rw [List.foldl_cons, ih]
      simp [saveRobotsStep, receivedRows]
    | tick =>
      rw [List.foldl_cons, ih]
      simp [saveRobotsStep, receivedRows]

/-- Shared lemma: the interval counters always count exactly the rows
inserted into the currently open transaction. -/
theorem saveRobotsFold_counts (evs : List SaveEvent) (s : SaveState)
    (hs : s.saveCount = s.openTx.length) (hf : s.failCount = failsIn s.openTx) :
    (evs.foldl saveRobotsStep s).saveCount = (evs.foldl saveRobotsStep s).openTx.length
    ∧ (evs.foldl saveRobotsStep s).failCount = failsIn (evs.foldl saveRobotsStep s).openTx := by
  induction evs generalizing s with
  | nil => exact ⟨hs, hf⟩
  | cons e evs ih =>
    cases e with
    | recv r =>
      rw [List.foldl_cons]
      refine ih _ ?_ ?_
      · simp [saveRobotsStep, hs]
      · simp only [saveRobotsStep, failsIn, List.countP_append, hf]
        by_cases h : r.url = "" <;> simp [h]
    | tick =>
      rw [List.foldl_cons]
      exact ih _ rfl rfl

/-- C7: every result received by the persistence stage is inserted into
the currently open transaction before being counted (the saved / failure
counters count exactly the open transaction's rows, the failure sub-count
exactly those with `finalUrl == ""`), and after the final commit every
received result sits in exactly one committed batch — the concatenation
of committed batches equals the received sequence, so nothing is lost or
duplicated between successive commits, and the final commit leaves no
open rows. -/
theorem persistence_batches_exact (evs : List SaveEvent) :
    (saveRobotsRun evs).committed.flatten = receivedRows evs
    ∧ (saveRobotsRun evs).openTx = []
    ∧ (saveRobotsFold evs).saveCount = (saveRobotsFold evs).openTx.length
    ∧ (saveRobotsFold evs).failCount = failsIn (saveRobotsFold evs).openTx := by
  have hfl := saveRobotsFold_flatten evs initSaveState
  have hct := saveRobotsFold_counts evs initSaveState rfl rfl
  refine ⟨?_, rfl, hct.1, hct.2⟩
  have hfl' : (List.foldl saveRobotsStep initSaveState evs).committed.flatten
      ++ (List.foldl saveRobotsStep initSaveState evs).openTx = receivedRows evs := by
    simpa [initSaveState] using hfl
  unfold saveRobotsRun saveRobotsFinal saveRobotsFold
  simp only [List.flatten_append, List.flatten_cons, List.flatten_nil, List.append_nil]
  exact hfl'

/-- C8 (code bug, acknowledged by the TODOs at lines 90 and 316): the
claim requires that a retry submission attempted after the coordinator
has closed the request queue fails closed (the request is abandoned) and
never panics.  On the code, a timeout within the attempt budget makes the
worker resubmit unconditionally, and a Go send on a closed channel
panics — it does not abandon. -/
theorem retry_after_close_panics :
    fetchRobotStep ⟨"example.com", 0⟩ (.transportError ⟨false, true, false⟩)
      = .resubmit ⟨"example.com", 1⟩
    ∧ pushToChan true = .panicked
    ∧ ChanPushResult.panicked ≠ ChanPushResult.delivered :=
  ⟨by decide, by decide, by decide⟩

/-- C9: if reading the response body fails after the response has been
classified as a success (status in [200,206], all content-type values
text/plain, redirect chain within the cap), the worker emits no result
for that attempt and re-submits the request with the ordinary attempt
increment, so a body-read error is retryable under the normal attempt
budget rather than a terminal HttpResponse outcome. -/
theorem body_read_error_resubmits (fr : FetchRequest) (hops status : Nat)
    (cts : List String) (u : String)
    (hhops : hops ≤ REDIRECT_CAP)
    (hst1 : 200 ≤ status) (hst2 : status ≤ 206)
    (hct : cts.all (fun m => hasPrefixStr m textPlain) = true)
    (hbudget : fr.attempt + 1 ≤ MAX_ATTEMPTS) :
    fetchRobotStep fr (.httpExchange hops status cts u .readError)
      = .resubmit ⟨fr.domain, fr.attempt + 1⟩ := by
  have hdo : clientDo (.httpExchange hops status cts u .readError)
      = .doOk status cts u .readError hops := by
    simp only [clientDo]
    rw [if_neg (by omega : ¬ hops > REDIRECT_CAP)]
  unfold fetchRobotStep
  dsimp only
  rw [hdo]
  dsimp only
  rw [if_neg (by omega : ¬ fr.attempt + 1 > MAX_ATTEMPTS)]
  split
  · rename_i hbad
    simp only [decide_eq_true_eq, Bool.or_eq_true] at hbad
    omega
  · split
    · rename_i hbad
      rw [hct] at hbad
      simp at hbad
    · rfl

/-- Witness for C9. -/
theorem body_read_error_resubmits_witness :
    (0 ≤ REDIRECT_CAP ∧ 200 ≤ 200 ∧ 200 ≤ 206
      ∧ [textPlain].all (fun m => hasPrefixStr m textPlain) = true
      ∧ 0 + 1 ≤ MAX_ATTEMPTS)
    ∧ fetchRobotStep ⟨"example.com", 0⟩
        (.httpExchange 0 200 [textPlain] "http://example.com/robots.txt" .readError)
        = .resubmit ⟨"example.com", 0 + 1⟩ :=
  ⟨⟨by decide, by decide, by decide, by decide, by decide⟩,
    body_read_error_resubmits ⟨"example.com", 0⟩ 0 200 [textPlain]
      "http://example.com/robots.txt" (by decide) (by decide) (by decide)
      (by decide) (by decide)⟩

/-- Shared lemma: after the final commit, the committed batches hold
exactly the received rows. -/
theorem saveRobotsRun_flatten (evs : List SaveEvent) :
    (saveRobotsRun evs).committed.flatten = receivedRows evs := by
  have h := saveRobotsFold_flatten evs initSaveState
  unfold saveRobotsRun saveRobotsFinal saveRobotsFold
  simp only [List.flatten_append, List.flatten_cons, List.flatten_nil, List.append_nil]
  simpa [initSaveState] using h

/-- C10: opening the database keeps an existing `robots` table's rows
(creation only happens when the table is absent, and nothing truncates),
and the total row count reported at termination is `COUNT(*)` over the
whole table: rows from earlier runs plus the rows received in this run —
not only the current run's results. -/
theorem reported_total_includes_prior_runs
    (prev : List RobotResponse) (evs : List SaveEvent) :
    openRobotsDb (some prev) = prev
    ∧ openRobotsDb none = []
    ∧ reportedTotal (openRobotsDb (some prev)) evs
        = prev.length + (receivedRows evs).length := by
  refine ⟨rfl, rfl, ?_⟩
  unfold reportedTotal tableAfterRun openRobotsDb
  rw [saveRobotsRun_flatten]
  simp
